import Mathlib

/-!
Verification of the `daos-rust-bind` OID allocator and completion-event
teardown logic, as a shallow embedding of `src/daos_oid_allocator.rs` and
`src/daos_event.rs`.

Machine integers are modelled as `Nat` with explicit `% 2 ^ w` where the
Rust code can truncate (`as u64`) or wrap (`u128` addition in release
mode).  Fallible Rust code returns a `RustResult`; a Rust `panic`
(`unwrap` on a failed conversion) is the `panicked` outcome.  Calls into
the storage collaborator (transaction open, conditional fetch / update,
commit) are recorded in an explicit trace, and their outcomes are
supplied by an environment structure, so that failure injection and the
deterministic storage semantics of spec section 6 are both instances of
one embedding.
-/

/-- Caller-visible error kind, embedding `std::io::ErrorKind` restricted to
the variants this crate constructs. -/
inductive ErrKind where
  | other
  | invalidData
  | invalidInput
  deriving DecidableEq

/-- Embedding of `std::io::Error` as the pair of its kind and message,
which is all the crate ever puts into one. -/
structure IoError where
  kind : ErrKind
  msg : String
  deriving DecidableEq

/-- Error built at src/daos_oid_allocator.rs:69/81/203: exhaustion of the OID space. -/
def noMoreOidsError : IoError := ⟨.other, "No more OIDs available"⟩

/-- Error built at src/daos_obj.rs:404 when the native fetch returns nonzero. -/
def fetchFailedError : IoError := ⟨.other, "Failed to fetch object"⟩

/-- Error built at src/daos_obj.rs:474 when the native update returns nonzero. -/
def updateFailedError : IoError := ⟨.other, "Failed to update object"⟩

/-- Error built at src/daos_txn.rs:106 when the native transaction open fails. -/
def txnOpenFailedError : IoError := ⟨.other, "fail to open DAOS transaction"⟩

/-- Error built at src/daos_txn.rs:156 when the native transaction commit fails. -/
def txnCommitFailedError : IoError := ⟨.other, "Failed to commit DAOS transaction"⟩

/-- Outcome of a Rust computation: `Ok`, `Err`, or a panic (an `unwrap`
that hit its error branch). -/
inductive RustResult (α : Type) where
  | ok (val : α)
  | err (e : IoError)
  | panicked
  deriving DecidableEq

/-- Embedding of `daos_obj_id_t` / `DaosObjectId`: two 64-bit halves. -/
structure DaosObjectId where
  hi : Nat
  lo : Nat
  deriving DecidableEq

/-- Constant `OID_BATCH_SIZE` from src/daos_oid_allocator.rs:30 (`1u128 << 10`). -/
def OID_BATCH_SIZE : Nat := 1 <<< 10

/-- Constant `OID_BATCH_CURSOR_START` from src/daos_oid_allocator.rs:32. -/
def OID_BATCH_CURSOR_START : Nat := 1024

/-- Modelled from the spec: `OID_FMT_INTR_BITS` is defined by the storage
engine's generated native bindings (`include!(daos-bindings.rs)`), which are
not part of this repository's sources.  The engine reserves 32
most-significant ID bits (type, class and meta bits); the spec only requires
it to be a fixed number of most-significant bits that must remain zero. -/
def OID_FMT_INTR_BITS : Nat := 32

/-- One more than the largest `u128` value. -/
def U128_LIMIT : Nat := 2 ^ 128

/-- Embedding of `u128::to_le_bytes`: the 16 little-endian bytes of a
128-bit value. -/
def u128ToLeBytes (n : Nat) : List Nat :=
  (List.range 16).map fun i => n / 256 ^ i % 256

/-- Little-endian byte-list decoding, the inverse used by `u128::from_le_bytes`. -/
def leBytesToNat (bs : List Nat) : Nat :=
  bs.foldr (fun b acc => b + 256 * acc) 0

/-- Embedding of `u128::from_le_bytes(res.try_into().unwrap())` minus the
unwrap: the `try_into` into `[u8; 16]` succeeds exactly when the vector has
16 bytes; otherwise the Rust code panics. -/
def u128FromLeBytes? (bs : List Nat) : Option Nat :=
  if bs.length = 16 then some (leBytesToNat bs) else none

/-- Conditional-write mode passed to the object update wrapper:
`DAOS_COND_DKEY_INSERT` (must not exist) or `DAOS_COND_DKEY_UPDATE`
(must exist). -/
inductive UpdateCond where
  | condDkeyInsert
  | condDkeyUpdate
  deriving DecidableEq

/-- One call into the storage collaborator, as issued by the batch claim.
Transaction ids: 0 is `DaosTxn::txn_none()` (no transaction / auto commit),
1 is the transaction of the first `DaosTxn::open`, 2 the transaction of the
retry `DaosTxn::open`. -/
inductive StorageCall where
  | txOpen (tid : Nat)
  | fetch (tid : Nat) (maxSize : Nat)
  | update (tid : Nat) (cond : UpdateCond) (data : List Nat)
  | commit (tid : Nat)
  deriving DecidableEq

deriving instance DecidableEq for Except

/-- Outcomes the storage collaborator gives to each primitive the batch
claim can issue, in program order.  Slots for calls that a given control
path never issues are simply unused. -/
structure BatchEnv where
  openTxn1 : Except IoError Unit
  fetch1 : Except IoError (List Nat)
  insertCursor : Except IoError Unit
  openTxn2 : Except IoError Unit
  fetch2 : Except IoError (List Nat)
  updateCursor : Except IoError Unit
  commitTxn : Except IoError Unit
  deriving DecidableEq

/-- Embedding of `std::ops::Range<u128>`, the allocator's in-memory
reservation range and the result type of a batch claim. -/
structure U128Range where
  start : Nat
  «end» : Nat
  deriving DecidableEq

/-- Tail of the batch claim shared by both fetch paths
(src/daos_oid_allocator.rs:154-169 and 272-286): one conditional update of
the cursor to `C + OID_BATCH_SIZE` (little-endian, wrapping `u128`
addition) inside transaction `tid`, then a commit of that transaction, then
the claimed range. -/
def finishClaim (tid : Nat) (c : Nat) (env : BatchEnv) (calls : List StorageCall) :
    RustResult U128Range × List StorageCall :=
  let newCursor := (c + OID_BATCH_SIZE) % U128_LIMIT
  let calls1 := calls ++ [.update tid .condDkeyUpdate (u128ToLeBytes newCursor)]
  match env.updateCursor with
  | .error e => (.err e, calls1)
  | .ok _ =>
    match env.commitTxn with
    | .error e => (.err e, calls1 ++ [.commit tid])
    | .ok _ => (.ok ⟨c, newCursor⟩, calls1 ++ [.commit tid])

/-- Embedding of `DaosAsyncOidAllocator::allocate_oid_batch`
(src/daos_oid_allocator.rs:94-170) and of
`DaosSyncOidAllocator::allocate_oid_batch` (src/daos_oid_allocator.rs:215-287),
which perform the identical sequence of storage calls once the
async/await plumbing is erased.  Returns the claim outcome together with
the trace of storage calls issued (including calls that failed). -/
def allocate_oid_batch (env : BatchEnv) : RustResult U128Range × List StorageCall :=
  match env.openTxn1 with
  | .error e => (.err e, [.txOpen 1])
  | .ok _ =>
    let calls1 : List StorageCall := [.txOpen 1, .fetch 1 32]
    match env.fetch1 with
    | .error _ =>
      let initial := (OID_BATCH_CURSOR_START + OID_BATCH_SIZE) % U128_LIMIT
      let calls2 := calls1 ++ [.update 0 .condDkeyInsert (u128ToLeBytes initial)]
      match env.insertCursor with
      | .ok _ => (.ok ⟨OID_BATCH_CURSOR_START, OID_BATCH_CURSOR_START + OID_BATCH_SIZE⟩, calls2)
      | .error _ =>
        match env.openTxn2 with
        | .error e => (.err e, calls2 ++ [.txOpen 2])
        | .ok _ =>
          let calls3 := calls2 ++ [.txOpen 2, .fetch 2 32]
          match env.fetch2 with
          | .error e => (.err e, calls3)
          | .ok bytes =>
            match u128FromLeBytes? bytes with
            | none => (.panicked, calls3)
            | some c => finishClaim 2 c env calls3
    | .ok bytes =>
      match u128FromLeBytes? bytes with
      | none => (.panicked, calls1)
      | some c => finishClaim 1 c env calls1

/-- Exhaustion test from src/daos_oid_allocator.rs:68/80/202:
`(range.start >> (128 - OID_FMT_INTR_BITS)) != 0`. -/
def oidExhausted (v : Nat) : Bool :=
  v >>> (128 - OID_FMT_INTR_BITS) != 0

/-- ID encoding from src/daos_oid_allocator.rs:71-77:
`hi = (start >> 64) as u64`, `lo = (start & 0xFFFF_FFFF_FFFF_FFFF) as u64`. -/
def encodeOid (v : Nat) : DaosObjectId :=
  ⟨(v >>> 64) % 2 ^ 64, v % 2 ^ 64⟩

/-- The 128-bit value a `DaosObjectId` stands for. -/
def oidVal (o : DaosObjectId) : Nat :=
  o.hi * 2 ^ 64 + o.lo

/-- Embedding of `DaosAsyncOidAllocator::allocate`
(src/daos_oid_allocator.rs:61-92): fast path consumes `range.start` with no
storage call; slow path installs the range claimed by
`allocate_oid_batch` and then consumes its first value.  The exhaustion
check guards every issued ID; on the slow path it runs after the new range
is installed.  Returns (result, new in-memory range, storage-call trace). -/
def DaosAsyncOidAllocator.allocate (a : U128Range) (env : BatchEnv) :
    RustResult DaosObjectId × U128Range × List StorageCall :=
  if a.start ≥ a.«end» then
    match allocate_oid_batch env with
    | (.ok newRange, calls) =>
      if oidExhausted newRange.start then
        (.err noMoreOidsError, newRange, calls)
      else
        (.ok (encodeOid newRange.start), ⟨newRange.start + 1, newRange.«end»⟩, calls)
    | (.err e, calls) => (.err e, a, calls)
    | (.panicked, calls) => (.panicked, a, calls)
  else
    if oidExhausted a.start then
      (.err noMoreOidsError, a, [])
    else
      (.ok (encodeOid a.start), ⟨a.start + 1, a.«end»⟩, [])

/-- Embedding of `DaosSyncOidAllocator::allocate`
(src/daos_oid_allocator.rs:190-213).  The sync variant refills first and
then runs one exhaustion check on whichever range it holds; this collapses
to the same function as the async variant, whose two branches each repeat
the check. -/
def DaosSyncOidAllocator.allocate (a : U128Range) (env : BatchEnv) :
    RustResult DaosObjectId × U128Range × List StorageCall :=
  if a.start ≥ a.«end» then
    match allocate_oid_batch env with
    | (.ok newRange, calls) =>
      if oidExhausted newRange.start then
        (.err noMoreOidsError, newRange, calls)
      else
        (.ok (encodeOid newRange.start), ⟨newRange.start + 1, newRange.«end»⟩, calls)
    | (.err e, calls) => (.err e, a, calls)
    | (.panicked, calls) => (.panicked, a, calls)
  else
    if oidExhausted a.start then
      (.err noMoreOidsError, a, [])
    else
      (.ok (encodeOid a.start), ⟨a.start + 1, a.«end»⟩, [])

theorem sync_allocate_eq_async :
    DaosSyncOidAllocator.allocate = DaosAsyncOidAllocator.allocate := rfl

/-!
Deterministic storage model for whole-system runs (spec section 6): the
cursor record is a single key-value pair; a conditional fetch succeeds
exactly when the key exists and returns the stored bytes; a conditional
insert succeeds exactly when the key is absent; a conditional update
succeeds exactly when the key is present.  During one batch claim the
single-instance run sees no concurrent writer (the engine is linearizable
per key), so the answers to the claim's calls are a function of the cursor
state at the start of the claim.
-/

/-- Answers a linearizable storage engine holding cursor record `cur`
(`none` = key absent) gives to the batch claim's calls, per the
conditional-write contract of spec section 6. -/
def storageEnv (cur : Option (List Nat)) : BatchEnv where
  openTxn1 := .ok ()
  fetch1 :=
    match cur with
    | none => .error fetchFailedError
    | some bs => .ok bs
  insertCursor :=
    match cur with
    | none => .ok ()
    | some _ => .error updateFailedError
  openTxn2 :=  .ok ()
  fetch2 :=
    match cur with
    | none => .error fetchFailedError
    | some bs => .ok bs
  updateCursor :=
    match cur with
    | none => .error updateFailedError
    | some _ => .ok ()
  commitTxn := .ok ()

/-- Effect of one storage call on the cursor record, per the
conditional-write contract of spec section 6 (writes that reach the trace
under `storageEnv` are the ones whose transaction commits or that run
without a transaction). -/
def applyCall (cur : Option (List Nat)) : StorageCall → Option (List Nat)
  | .update _ .condDkeyInsert data =>
    match cur with
    | none => some data
    | some bs => some bs
  | .update _ .condDkeyUpdate data =>
    match cur with
    | none => none
    | some _ => some data
  | _ => cur

/-- Effect of a trace of storage calls on the cursor record. -/
def applyCalls (cur : Option (List Nat)) (calls : List StorageCall) : Option (List Nat) :=
  calls.foldl applyCall cur

/-- Whole-system state: one allocator instance's in-memory range plus the
persisted cursor record. -/
structure SysState where
  alloc : U128Range
  cursor : Option (List Nat)
  deriving DecidableEq

/-- One `allocate` call of the instance against the deterministic storage:
the claim's calls are answered from the current cursor record, and the
writes in the issued trace take effect on it. -/
def sysAllocate (s : SysState) : RustResult DaosObjectId × SysState × List StorageCall :=
  match DaosAsyncOidAllocator.allocate s.alloc (storageEnv s.cursor) with
  | (res, a, calls) => (res, ⟨a, applyCalls s.cursor calls⟩, calls)

/-- An action of a whole-system run: either this instance allocates, or
other allocator instances move the persisted cursor.  Per the spec
section 3 invariant the persisted cursor only ever increases and always
holds a 16-byte little-endian `u128`, so interference replaces it by the
encoding of any `v` at or above its current value (and at or above the
bootstrap value `OID_BATCH_CURSOR_START + OID_BATCH_SIZE` when it is first
created); an out-of-range `v` leaves the record unchanged. -/
inductive SysAct where
  | allocOne
  | interfere (v : Nat)

/-- Interference by other allocator instances sharing the cursor. -/
def interfere (s : SysState) (v : Nat) : SysState :=
  match s.cursor with
  | none =>
    if OID_BATCH_CURSOR_START + OID_BATCH_SIZE ≤ v ∧ v < U128_LIMIT then
      ⟨s.alloc, some (u128ToLeBytes v)⟩
    else s
  | some bs =>
    if leBytesToNat bs ≤ v ∧ v < U128_LIMIT then
      ⟨s.alloc, some (u128ToLeBytes v)⟩
    else s

/-- Log entry of one `allocate` call in a run: its result and the storage
calls it issued. -/
structure AllocLog where
  res : RustResult DaosObjectId
  calls : List StorageCall
  deriving DecidableEq

/-- Run a list of system actions, collecting one log entry per `allocate`
call of the instance. -/
def sysRun (s : SysState) : List SysAct → List AllocLog × SysState
  | [] => ([], s)
  | .allocOne :: rest =>
    match sysAllocate s with
    | (res, s1, calls) =>
      match sysRun s1 rest with
      | (logs, s2) => (⟨res, calls⟩ :: logs, s2)
  | .interfere v :: rest => sysRun (interfere s v) rest

/-- Initial whole-system state: the allocator starts with the empty range
`0..0` (src/daos_oid_allocator.rs:55/184) and the container has no cursor
record yet. -/
def initState : SysState := ⟨⟨0, 0⟩, none⟩

/-- The values of the IDs successfully issued in a run log. -/
def okVals (logs : List AllocLog) : List Nat :=
  logs.filterMap fun l =>
    match l.res with
    | .ok oid => some (oidVal oid)
    | _ => none

/-- The IDs successfully issued in a run log. -/
def okIds (logs : List AllocLog) : List DaosObjectId :=
  logs.filterMap fun l =>
    match l.res with
    | .ok oid => some oid
    | _ => none

/-- Whether a Rust result is `Ok`. -/
def isOkRes {α : Type} : RustResult α → Bool
  | .ok _ => true
  | _ => false

/-- Every `allocate` call in the log returned `Ok`. -/
@[reducible] def allOk (logs : List AllocLog) : Prop :=
  ∀ l ∈ logs, isOkRes l.res = true

/-!
Embedding of the completion-event teardown logic of src/daos_event.rs.
The native layer's behaviour (return code of `daos_event_test` together
with the status flag it reports, and the return code of
`daos_event_fini` / `daos_eq_destroy`, and whether the shutdown channel
send succeeds) is an environment; the drop logic is a pure function of it.
-/

/-- Native answers consumed by `impl Drop for DaosEvent`. -/
structure EventDropEnv where
  testRet : Int
  testStatus : Bool
  finiRet : Int
  deriving DecidableEq

/-- Native calls `impl Drop for DaosEvent` can issue. -/
inductive EventCall where
  | test
  | fini
  deriving DecidableEq

/-- Embedding of `impl Drop for DaosEvent` (src/daos_event.rs:106-132).
`present` says whether `self.event` is `Some`.  Returns (is the event
still held after the drop, native calls issued in order, messages
reported on stderr). -/
def DaosEvent.dropImpl (present : Bool) (env : EventDropEnv) :
    Bool × List EventCall × List String :=
  if present then
    if env.testRet = 0 then
      if env.testStatus then
        if env.finiRet ≠ 0 then
          (true, [.test, .fini], ["Failed to fini daos event"])
        else
          (false, [.test, .fini], [])
      else
        (true, [.test], ["event is still in queue"])
    else
      (true, [.test], ["fail to test event status"])
  else
    (false, [], [])

/-- Native / runtime answers consumed by `impl Drop for DaosEventQueue`. -/
structure QueueDropEnv where
  sendOk : Bool
  destroyRet : Int
  deriving DecidableEq

/-- Steps `impl Drop for DaosEventQueue` can perform: send the shutdown
signal on the control channel, join the poller thread, destroy the native
queue. -/
inductive QueueCall where
  | sendShutdown
  | joinPoller
  | destroyQueue
  deriving DecidableEq

/-- Embedding of `impl Drop for DaosEventQueue` (src/daos_event.rs:181-200).
`handlePresent` says whether `self.handle` is `Some`.  Returns (is the
handle still held after the drop, steps performed in order, messages
reported on stderr). -/
def DaosEventQueue.dropImpl (handlePresent : Bool) (env : QueueDropEnv) :
    Bool × List QueueCall × List String :=
  if handlePresent then
    if env.sendOk then
      if env.destroyRet ≠ 0 then
        (true, [.sendShutdown, .joinPoller, .destroyQueue], ["Failed to destroy event queue"])
      else
        (false, [.sendShutdown, .joinPoller, .destroyQueue], [])
    else
      (true, [.sendShutdown], [])
  else
    (false, [], [])

/-!
Arithmetic and encoding helper lemmas.
-/

theorem length_u128ToLeBytes (n : Nat) : (u128ToLeBytes n).length = 16 := by
  simp [u128ToLeBytes]

theorem leBytesToNat_digits (k n : Nat) :
    leBytesToNat ((List.range k).map fun i => n / 256 ^ i % 256) = n % 256 ^ k := by
  induction k generalizing n with
  | zero => simp [leBytesToNat, Nat.mod_one]
  | succ k ih =>
    rw [List.range_succ_eq_map]
    simp only [List.map_cons, List.map_map]
    have hcomp :
        ((fun i => n / 256 ^ i % 256) ∘ Nat.succ) = fun i => (n / 256) / 256 ^ i % 256 := by
      funext i
      simp [Function.comp, Nat.pow_succ, Nat.div_div_eq_div_mul, Nat.mul_comm,
        Nat.pow_succ']
    rw [hcomp]
    have hfold :
        leBytesToNat ((n / 256 ^ 0 % 256) ::
            ((List.range k).map fun i => (n / 256) / 256 ^ i % 256)) =
          n % 256 + 256 * leBytesToNat ((List.range k).map fun i => (n / 256) / 256 ^ i % 256) := by
      simp [leBytesToNat]
    rw [hfold, ih (n / 256)]
    have h1 : 256 ^ (k + 1) = 256 * 256 ^ k := by ring
    rw [h1, Nat.mod_mul]


theorem leBytesToNat_u128ToLeBytes (n : Nat) :
    leBytesToNat (u128ToLeBytes n) = n % U128_LIMIT := by
  have h := leBytesToNat_digits 16 n
  have h2 : (256 : Nat) ^ 16 = 2 ^ 128 := by norm_num
  rw [u128ToLeBytes, U128_LIMIT]
  rw [h, h2]

theorem u128FromLeBytes?_u128ToLeBytes (n : Nat) :
    u128FromLeBytes? (u128ToLeBytes n) = some (n % U128_LIMIT) := by
  rw [u128FromLeBytes?, if_pos (length_u128ToLeBytes n), leBytesToNat_u128ToLeBytes]

theorem u128FromLeBytes?_of_length (bs : List Nat) (h : bs.length = 16) :
    u128FromLeBytes? bs = some (leBytesToNat bs) := by
  rw [u128FromLeBytes?, if_pos h]

theorem u128FromLeBytes?_of_length_ne (bs : List Nat) (h : bs.length ≠ 16) :
    u128FromLeBytes? bs = none := by
  rw [u128FromLeBytes?, if_neg h]

theorem oidExhausted_eq_false_iff (v : Nat) :
    oidExhausted v = false ↔ v < 2 ^ 96 := by
  rw [oidExhausted]
  have hbits : 128 - OID_FMT_INTR_BITS = 96 := by rw [OID_FMT_INTR_BITS]
  rw [hbits, Nat.shiftRight_eq_div_pow]
  simp only [bne_eq_false_iff_eq]
  exact Nat.div_eq_zero_iff (by positivity)

theorem oidExhausted_eq_true_iff (v : Nat) :
    oidExhausted v = true ↔ 2 ^ 96 ≤ v := by
  rw [← not_iff_not]
  simp only [not_le, ← oidExhausted_eq_false_iff]
  cases h : oidExhausted v <;> simp

theorem oidVal_encodeOid (v : Nat) (h : v < U128_LIMIT) : oidVal (encodeOid v) = v := by
  rw [oidVal, encodeOid]
  simp only [Nat.shiftRight_eq_div_pow]
  have h64 : v / 2 ^ 64 < 2 ^ 64 := by
    apply Nat.div_lt_of_lt_mul
    calc v < U128_LIMIT := h
    _ = 2 ^ 64 * 2 ^ 64 := by rw [U128_LIMIT]; norm_num
  rw [Nat.mod_eq_of_lt h64]
  rw [Nat.mul_comm]
  exact Nat.div_add_mod v (2 ^ 64)

theorem encodeOid_eq_of_small (v : Nat) (h : v < 2 ^ 96) :
    encodeOid v = ⟨v >>> 64, v % 2 ^ 64⟩ := by
  rw [encodeOid]
  congr 1
  apply Nat.mod_eq_of_lt
  rw [Nat.shiftRight_eq_div_pow]
  apply Nat.div_lt_of_lt_mul
  calc v < 2 ^ 96 := h
  _ ≤ 2 ^ 64 * 2 ^ 64 := by norm_num

/-- Number of conditional fetches in a storage-call trace. -/
def fetchCount (calls : List StorageCall) : Nat :=
  calls.countP fun c =>
    match c with
    | .fetch _ _ => true
    | _ => false

/-- C3: for every allocator state with `start < end` whose reserved high
bits are zero, `allocate` (async and sync) returns `Ok` with the ID encoded
from `start` (`hi = start >> 64`, `lo = start mod 2^64`), increments
`start` by one, leaves `end` unchanged, and issues no storage call at all
(empty trace: no transaction open, fetch, update, or commit). -/
theorem fast_path_frame (a : U128Range) (env : BatchEnv)
    (hlt : a.start < a.«end»)
    (hz : a.start >>> (128 - OID_FMT_INTR_BITS) = 0) :
    DaosAsyncOidAllocator.allocate a env =
      (.ok ⟨a.start >>> 64, a.start % 2 ^ 64⟩, ⟨a.start + 1, a.«end»⟩, [])
    ∧ DaosSyncOidAllocator.allocate a env =
      (.ok ⟨a.start >>> 64, a.start % 2 ^ 64⟩, ⟨a.start + 1, a.«end»⟩, []) := by
  have hex : oidExhausted a.start = false := by
    simp [oidExhausted, hz]
  have hsmall : a.start < 2 ^ 96 := (oidExhausted_eq_false_iff _).1 hex
  have hasync : DaosAsyncOidAllocator.allocate a env =
      (.ok ⟨a.start >>> 64, a.start % 2 ^ 64⟩, ⟨a.start + 1, a.«end»⟩, []) := by
    rw [DaosAsyncOidAllocator.allocate, if_neg (by omega), if_neg (by simp [hex]),
      encodeOid_eq_of_small _ hsmall]
  exact ⟨hasync, by rw [sync_allocate_eq_async]; exact hasync⟩

theorem fast_path_frame_witness :
    ((1024 : Nat) < 2048 ∧ (1024 : Nat) >>> (128 - OID_FMT_INTR_BITS) = 0)
    ∧ (DaosAsyncOidAllocator.allocate ⟨1024, 2048⟩ (storageEnv none) =
        (.ok ⟨(1024 : Nat) >>> 64, (1024 : Nat) % 2 ^ 64⟩, ⟨1024 + 1, 2048⟩, [])
      ∧ DaosSyncOidAllocator.allocate ⟨1024, 2048⟩ (storageEnv none) =
        (.ok ⟨(1024 : Nat) >>> 64, (1024 : Nat) % 2 ^ 64⟩, ⟨1024 + 1, 2048⟩, [])) :=
  ⟨⟨by decide, by decide⟩,
   fast_path_frame ⟨1024, 2048⟩ (storageEnv none) (by decide) (by decide)⟩

/-- C4: whenever the first conditional fetch of the cursor succeeds with
the 16-byte little-endian value `C` (and the subsequent conditional update
and commit succeed), the batch claim issues exactly one conditional update
(must-exist mode, in the same transaction 1 as the fetch) writing
`C + OID_BATCH_SIZE` as fixed-width little-endian bytes, commits that
transaction, and returns the range `[C, C + OID_BATCH_SIZE)`; the persisted
value decodes to `C + OID_BATCH_SIZE`, strictly above `C`. -/
theorem batch_claim_advances_cursor (env : BatchEnv) (c : Nat)
    (hof : c + OID_BATCH_SIZE < U128_LIMIT)
    (ho : env.openTxn1 = .ok ())
    (hf : env.fetch1 = .ok (u128ToLeBytes c))
    (hu : env.updateCursor = .ok ())
    (hcm : env.commitTxn = .ok ()) :
    allocate_oid_batch env =
      (.ok ⟨c, c + OID_BATCH_SIZE⟩,
        [.txOpen 1, .fetch 1 32,
         .update 1 .condDkeyUpdate (u128ToLeBytes (c + OID_BATCH_SIZE)), .commit 1])
    ∧ leBytesToNat (u128ToLeBytes (c + OID_BATCH_SIZE)) = c + OID_BATCH_SIZE
    ∧ c < c + OID_BATCH_SIZE := by
  have hc : c < U128_LIMIT := lt_of_le_of_lt (Nat.le_add_right _ _) hof
  have hmod : (c + OID_BATCH_SIZE) % U128_LIMIT = c + OID_BATCH_SIZE := Nat.mod_eq_of_lt hof
  have hbs : (0 : Nat) < OID_BATCH_SIZE := by decide
  refine ⟨?_, ?_, by omega⟩
  · simp only [allocate_oid_batch, ho, hf, u128FromLeBytes?_u128ToLeBytes,
      Nat.mod_eq_of_lt hc, finishClaim, hu, hcm, hmod]
    rfl
  · rw [leBytesToNat_u128ToLeBytes, hmod]

theorem batch_claim_advances_cursor_witness :
    ((2048 : Nat) + OID_BATCH_SIZE < U128_LIMIT
      ∧ (storageEnv (some (u128ToLeBytes 2048))).openTxn1 = .ok ()
      ∧ (storageEnv (some (u128ToLeBytes 2048))).fetch1 = .ok (u128ToLeBytes 2048)
      ∧ (storageEnv (some (u128ToLeBytes 2048))).updateCursor = .ok ()
      ∧ (storageEnv (some (u128ToLeBytes 2048))).commitTxn = .ok ())
    ∧ (allocate_oid_batch (storageEnv (some (u128ToLeBytes 2048))) =
        (.ok ⟨2048, 2048 + OID_BATCH_SIZE⟩,
          [.txOpen 1, .fetch 1 32,
           .update 1 .condDkeyUpdate (u128ToLeBytes (2048 + OID_BATCH_SIZE)), .commit 1])
      ∧ leBytesToNat (u128ToLeBytes (2048 + OID_BATCH_SIZE)) = 2048 + OID_BATCH_SIZE
      ∧ 2048 < 2048 + OID_BATCH_SIZE) :=
  ⟨⟨by decide, by decide, by decide, by decide, by decide⟩,
   batch_claim_advances_cursor (storageEnv (some (u128ToLeBytes 2048))) 2048
     (by decide) (by decide) (by decide) (by decide) (by decide)⟩

/-- C5: when the first conditional fetch fails, the claim attempts a
conditional insert of `INITIAL + BATCH_SIZE` with must-not-exist mode under
the no-transaction write (transaction id 0); on insert success it returns
`[INITIAL, INITIAL + BATCH_SIZE)` immediately (no update, no commit); on
insert failure it abandons transaction 1, opens transaction 2, re-fetches,
and proceeds on the update path; a failure of the second transaction open
or of the second fetch propagates as that error; and no execution of the
claim ever issues more than two fetches (the retry happens at most once). -/
theorem bootstrap_one_shot_retry (env : BatchEnv) (e : IoError)
    (ho : env.openTxn1 = .ok ())
    (hf : env.fetch1 = .error e) :
    (env.insertCursor = .ok () →
      allocate_oid_batch env =
        (.ok ⟨OID_BATCH_CURSOR_START, OID_BATCH_CURSOR_START + OID_BATCH_SIZE⟩,
         [.txOpen 1, .fetch 1 32,
          .update 0 .condDkeyInsert
            (u128ToLeBytes (OID_BATCH_CURSOR_START + OID_BATCH_SIZE))]))
    ∧ (∀ e2 e3, env.insertCursor = .error e2 → env.openTxn2 = .error e3 →
        allocate_oid_batch env =
          (.err e3,
           [.txOpen 1, .fetch 1 32,
            .update 0 .condDkeyInsert
              (u128ToLeBytes (OID_BATCH_CURSOR_START + OID_BATCH_SIZE)),
            .txOpen 2]))
    ∧ (∀ e2 e4, env.insertCursor = .error e2 → env.openTxn2 = .ok () →
        env.fetch2 = .error e4 →
        allocate_oid_batch env =
          (.err e4,
           [.txOpen 1, .fetch 1 32,
            .update 0 .condDkeyInsert
              (u128ToLeBytes (OID_BATCH_CURSOR_START + OID_BATCH_SIZE)),
            .txOpen 2, .fetch 2 32]))
    ∧ (∀ e2 c, env.insertCursor = .error e2 → env.openTxn2 = .ok () →
        env.fetch2 = .ok (u128ToLeBytes c) → c + OID_BATCH_SIZE < U128_LIMIT →
        env.updateCursor = .ok () → env.commitTxn = .ok () →
        allocate_oid_batch env =
          (.ok ⟨c, c + OID_BATCH_SIZE⟩,
           [.txOpen 1, .fetch 1 32,
            .update 0 .condDkeyInsert
              (u128ToLeBytes (OID_BATCH_CURSOR_START + OID_BATCH_SIZE)),
            .txOpen 2, .fetch 2 32,
            .update 2 .condDkeyUpdate (u128ToLeBytes (c + OID_BATCH_SIZE)), .commit 2]))
    ∧ (∀ env2 : BatchEnv, fetchCount (allocate_oid_batch env2).2 ≤ 2) := by
  have hinit : (OID_BATCH_CURSOR_START + OID_BATCH_SIZE) % U128_LIMIT =
      OID_BATCH_CURSOR_START + OID_BATCH_SIZE := Nat.mod_eq_of_lt (by decide)
  refine ⟨?_, ?_, ?_, ?_, ?_⟩
  · intro hi
    simp only [allocate_oid_batch, ho, hf, hi, hinit]
    rfl
  · intro e2 e3 hi ho2
    simp only [allocate_oid_batch, ho, hf, hi, ho2, hinit]
    rfl
  · intro e2 e4 hi ho2 hf2
    simp only [allocate_oid_batch, ho, hf, hi, ho2, hf2, hinit]
    rfl
  · intro e2 c hi ho2 hf2 hof hu hcm
    have hc : c < U128_LIMIT := lt_of_le_of_lt (Nat.le_add_right _ _) hof
    simp only [allocate_oid_batch, ho, hf, hi, ho2, hf2, hinit,
      u128FromLeBytes?_u128ToLeBytes, Nat.mod_eq_of_lt hc, finishClaim, hu, hcm,
      Nat.mod_eq_of_lt hof]
    rfl
  · intro env2
    rcases env2 with ⟨o1, f1, ic, o2, f2, uc, ct⟩
    rcases o1 with e | u1
    · simp [allocate_oid_batch, fetchCount]
    · rcases f1 with e | bs
      · rcases ic with e2 | u2
        · rcases o2 with e3 | u3
          · simp [allocate_oid_batch, fetchCount, List.countP_cons]
          · rcases f2 with e4 | bs2
            · simp [allocate_oid_batch, fetchCount, List.countP_cons]
            · rcases hdec : u128FromLeBytes? bs2 with _ | c
              · simp [allocate_oid_batch, fetchCount, hdec, List.countP_cons]
              · rcases uc with e5 | u5 <;> rcases ct with e6 | u6 <;>
                  simp [allocate_oid_batch, finishClaim, fetchCount, hdec,
                    List.countP_append, List.countP_cons]
        · simp [allocate_oid_batch, fetchCount, List.countP_cons]
      · rcases hdec : u128FromLeBytes? bs with _ | c
        · simp [allocate_oid_batch, fetchCount, hdec, List.countP_cons]
        · rcases uc with e5 | u5 <;> rcases ct with e6 | u6 <;>
            simp [allocate_oid_batch, finishClaim, fetchCount, hdec,
              List.countP_append, List.countP_cons]

theorem bootstrap_one_shot_retry_witness :
    ((storageEnv none).openTxn1 = .ok ()
      ∧ (storageEnv none).fetch1 = .error fetchFailedError)
    ∧ ((storageEnv none).insertCursor = .ok ()
      ∧ allocate_oid_batch (storageEnv none) =
        (.ok ⟨OID_BATCH_CURSOR_START, OID_BATCH_CURSOR_START + OID_BATCH_SIZE⟩,
         [.txOpen 1, .fetch 1 32,
          .update 0 .condDkeyInsert
            (u128ToLeBytes (OID_BATCH_CURSOR_START + OID_BATCH_SIZE))])) :=
  ⟨⟨by decide, by decide⟩,
   by decide,
   (bootstrap_one_shot_retry (storageEnv none) fetchFailedError
     (by decide) (by decide)).1 (by decide)⟩

/-- C10: if a conditional fetch of the cursor succeeds but returns a byte
vector whose length is not 16, the `try_into().unwrap()` in the batch claim
panics (first-fetch path and retry-fetch path alike), and the panic
propagates out of `allocate` (async and sync); the unwrap's error branch is
unreachable exactly when the fetched value is 16 bytes, in which case the
decode yields the little-endian value. -/
theorem cursor_decode_unwrap_panics (env : BatchEnv) (bs : List Nat) (a : U128Range)
    (hlen : bs.length ≠ 16) (hslow : a.«end» ≤ a.start) :
    (env.openTxn1 = .ok () → env.fetch1 = .ok bs →
      allocate_oid_batch env = (.panicked, [.txOpen 1, .fetch 1 32])
      ∧ DaosAsyncOidAllocator.allocate a env = (.panicked, a, [.txOpen 1, .fetch 1 32])
      ∧ DaosSyncOidAllocator.allocate a env = (.panicked, a, [.txOpen 1, .fetch 1 32]))
    ∧ (∀ e e2, env.openTxn1 = .ok () → env.fetch1 = .error e →
        env.insertCursor = .error e2 → env.openTxn2 = .ok () → env.fetch2 = .ok bs →
        (allocate_oid_batch env).1 = .panicked
        ∧ (DaosAsyncOidAllocator.allocate a env).1 = .panicked)
    ∧ (∀ bs2 : List Nat, bs2.length = 16 →
        u128FromLeBytes? bs2 = some (leBytesToNat bs2)) := by
  refine ⟨?_, ?_, fun bs2 h => u128FromLeBytes?_of_length bs2 h⟩
  · intro ho hf
    have hbatch : allocate_oid_batch env = (.panicked, [.txOpen 1, .fetch 1 32]) := by
      simp only [allocate_oid_batch, ho, hf, u128FromLeBytes?_of_length_ne bs hlen]
    refine ⟨hbatch, ?_, ?_⟩
    · rw [DaosAsyncOidAllocator.allocate, if_pos hslow, hbatch]
    · rw [sync_allocate_eq_async, DaosAsyncOidAllocator.allocate, if_pos hslow, hbatch]
  · intro e e2 ho hf hi ho2 hf2
    have hbatch : allocate_oid_batch env =
        (.panicked,
         [.txOpen 1, .fetch 1 32,
          .update 0 .condDkeyInsert
            (u128ToLeBytes ((OID_BATCH_CURSOR_START + OID_BATCH_SIZE) % U128_LIMIT)),
          .txOpen 2, .fetch 2 32]) := by
      simp only [allocate_oid_batch, ho, hf, hi, ho2, hf2,
        u128FromLeBytes?_of_length_ne bs hlen]
      rfl
    refine ⟨by rw [hbatch], ?_⟩
    rw [DaosAsyncOidAllocator.allocate, if_pos hslow, hbatch]

theorem cursor_decode_unwrap_panics_witness :
    (([] : List Nat).length ≠ 16 ∧ (0 : Nat) ≤ 0)
    ∧ (storageEnv (some [])).openTxn1 = .ok ()
    ∧ (storageEnv (some [])).fetch1 = .ok []
    ∧ allocate_oid_batch (storageEnv (some [])) = (.panicked, [.txOpen 1, .fetch 1 32])
    ∧ DaosAsyncOidAllocator.allocate ⟨0, 0⟩ (storageEnv (some [])) =
        (.panicked, ⟨0, 0⟩, [.txOpen 1, .fetch 1 32]) :=
  ⟨⟨by decide, by decide⟩, by decide, by decide,
   ((cursor_decode_unwrap_panics (storageEnv (some [])) [] ⟨0, 0⟩
      (by decide) (by decide)).1 (by decide) (by decide)).1,
   ((cursor_decode_unwrap_panics (storageEnv (some [])) [] ⟨0, 0⟩
      (by decide) (by decide)).1 (by decide) (by decide)).2.1⟩

/-- C8: on drop of a `DaosEvent`, `daos_event_fini` is invoked only when
`daos_event_test` has been called, returned 0, and reported the operation
out of the queue (`status = true`), and then only right after that test;
if the test reports the event still enqueued, or the test call itself
fails, the drop reports the condition on stderr and leaves the event held,
issuing no finalize call. -/
theorem event_drop_fini_only_after_test (present : Bool) (env : EventDropEnv) :
    (EventCall.fini ∈ (DaosEvent.dropImpl present env).2.1 →
      env.testRet = 0 ∧ env.testStatus = true
      ∧ (DaosEvent.dropImpl present env).2.1 = [.test, .fini])
    ∧ (present = true → env.testRet = 0 → env.testStatus = false →
        DaosEvent.dropImpl present env = (true, [.test], ["event is still in queue"]))
    ∧ (present = true → env.testRet ≠ 0 →
        DaosEvent.dropImpl present env = (true, [.test], ["fail to test event status"])) := by
  rcases env with ⟨tr, ts, fr⟩
  cases present
  · refine ⟨?_, by simp, by simp⟩
    intro h
    simp [DaosEvent.dropImpl] at h
  · by_cases htr : tr = 0
    · cases ts
      · refine ⟨?_, by simp [DaosEvent.dropImpl, htr], by simp [htr]⟩
        intro h
        simp [DaosEvent.dropImpl, htr] at h
      · by_cases hfr : fr ≠ 0
        · exact ⟨fun _ => ⟨htr, rfl, by simp [DaosEvent.dropImpl, htr, hfr]⟩,
            by simp, by simp [htr]⟩
        · exact ⟨fun _ => ⟨htr, rfl, by simp [DaosEvent.dropImpl, htr, hfr]⟩,
            by simp, by simp [htr]⟩
    · refine ⟨?_, by simp [htr], by simp [DaosEvent.dropImpl, htr]⟩
      intro h
      simp [DaosEvent.dropImpl, htr] at h

theorem event_drop_fini_only_after_test_witness :
    (true = true ∧ (0 : Int) = 0 ∧ false = false)
    ∧ DaosEvent.dropImpl true ⟨0, false, 0⟩ = (true, [.test], ["event is still in queue"]) :=
  ⟨⟨rfl, rfl, rfl⟩,
   (event_drop_fini_only_after_test true ⟨0, false, 0⟩).2.1 rfl rfl rfl⟩

/-- C9: dropping a `DaosEventQueue` that still holds its handle and whose
shutdown send succeeds performs, in order, the shutdown send, the poller
join, and the native destroy, and clears the stored handle exactly when the
destroy returns 0; dropping a queue whose handle was already released
performs no step and changes nothing. -/
theorem queue_drop_order_and_idempotence (env : QueueDropEnv)
    (hs : env.sendOk = true) :
    ((DaosEventQueue.dropImpl true env).2.1 =
        [.sendShutdown, .joinPoller, .destroyQueue]
      ∧ ((DaosEventQueue.dropImpl true env).1 = false ↔ env.destroyRet = 0))
    ∧ DaosEventQueue.dropImpl false env = (false, [], []) := by
  rcases env with ⟨so, dr⟩
  subst hs
  by_cases hdr : dr ≠ 0
  · exact ⟨⟨by simp [DaosEventQueue.dropImpl, hdr], by simp [DaosEventQueue.dropImpl, hdr]⟩,
      by simp [DaosEventQueue.dropImpl]⟩
  · rw [not_not] at hdr
    exact ⟨⟨by simp [DaosEventQueue.dropImpl, hdr], by simp [DaosEventQueue.dropImpl, hdr]⟩,
      by simp [DaosEventQueue.dropImpl]⟩

theorem queue_drop_order_and_idempotence_witness :
    ((⟨true, 0⟩ : QueueDropEnv).sendOk = true)
    ∧ (((DaosEventQueue.dropImpl true ⟨true, 0⟩).2.1 =
          [.sendShutdown, .joinPoller, .destroyQueue]
        ∧ ((DaosEventQueue.dropImpl true ⟨true, 0⟩).1 = false ↔ (0 : Int) = 0))
      ∧ DaosEventQueue.dropImpl false ⟨true, 0⟩ = (false, [], [])) :=
  ⟨rfl, queue_drop_order_and_idempotence ⟨true, 0⟩ rfl⟩

/-- C6 counterexample: at the concrete exhausted state `start = 2^96`
(reserved top `OID_FMT_INTR_BITS` bits nonzero) `allocate` does return an
error rather than an ID, but that error's `ErrorKind` is `Other` — exactly
the same kind as the fetch, update, transaction-open and commit failures —
so it is not a distinct error kind distinguishable by the caller, refuting
the claim's last conjunct. -/
theorem exhaustion_error_kind_counterexample :
    (DaosAsyncOidAllocator.allocate ⟨2 ^ 96, 2 ^ 96 + 1⟩ (storageEnv none)).1 =
      .err noMoreOidsError
    ∧ noMoreOidsError.kind = ErrKind.other
    ∧ noMoreOidsError.kind = fetchFailedError.kind
    ∧ noMoreOidsError.kind = updateFailedError.kind
    ∧ noMoreOidsError.kind = txnOpenFailedError.kind
    ∧ noMoreOidsError.kind = txnCommitFailedError.kind := by
  refine ⟨?_, rfl, rfl, rfl, rfl, rfl⟩
  decide

/-- C6 as amended: for every candidate ID value (the fast-path `start`, or
the start of a freshly claimed range) whose reserved top `OID_FMT_INTR_BITS`
bits are nonzero, `allocate` (async and sync) returns the dedicated
"No more OIDs available" error rather than an ID and never wraps around;
that error is a distinct error value, distinguishable from
transaction/fetch/update/commit failures by its message text, though it
shares `ErrorKind::Other` with all of them. -/
theorem exhaustion_error_amended (a : U128Range) (env : BatchEnv) :
    ((a.start < a.«end» ∧ oidExhausted a.start = true) →
      DaosAsyncOidAllocator.allocate a env = (.err noMoreOidsError, a, [])
      ∧ DaosSyncOidAllocator.allocate a env = (.err noMoreOidsError, a, []))
    ∧ (∀ r calls, a.«end» ≤ a.start → allocate_oid_batch env = (.ok r, calls) →
        oidExhausted r.start = true →
        DaosAsyncOidAllocator.allocate a env = (.err noMoreOidsError, r, calls)
        ∧ DaosSyncOidAllocator.allocate a env = (.err noMoreOidsError, r, calls))
    ∧ noMoreOidsError.msg ≠ fetchFailedError.msg
    ∧ noMoreOidsError.msg ≠ updateFailedError.msg
    ∧ noMoreOidsError.msg ≠ txnOpenFailedError.msg
    ∧ noMoreOidsError.msg ≠ txnCommitFailedError.msg := by
  refine ⟨?_, ?_, by decide, by decide, by decide, by decide⟩
  · rintro ⟨hlt, hex⟩
    have h : DaosAsyncOidAllocator.allocate a env = (.err noMoreOidsError, a, []) := by
      rw [DaosAsyncOidAllocator.allocate, if_neg (by omega), if_pos (by simp [hex])]
    exact ⟨h, by rw [sync_allocate_eq_async]; exact h⟩
  · intro r calls hge hclaim hex
    have h : DaosAsyncOidAllocator.allocate a env = (.err noMoreOidsError, r, calls) := by
      rw [DaosAsyncOidAllocator.allocate, if_pos hge, hclaim]
      simp only [hex, if_true]
    exact ⟨h, by rw [sync_allocate_eq_async]; exact h⟩

theorem exhaustion_error_amended_witness :
    ((2 : Nat) ^ 96 < 2 ^ 96 + 1 ∧ oidExhausted (2 ^ 96) = true)
    ∧ (DaosAsyncOidAllocator.allocate ⟨2 ^ 96, 2 ^ 96 + 1⟩ (storageEnv none) =
        (.err noMoreOidsError, ⟨2 ^ 96, 2 ^ 96 + 1⟩, [])
      ∧ DaosSyncOidAllocator.allocate ⟨2 ^ 96, 2 ^ 96 + 1⟩ (storageEnv none) =
        (.err noMoreOidsError, ⟨2 ^ 96, 2 ^ 96 + 1⟩, [])) :=
  ⟨⟨by decide, by decide⟩,
   (exhaustion_error_amended ⟨2 ^ 96, 2 ^ 96 + 1⟩ (storageEnv none)).1
     ⟨by decide, by decide⟩⟩

/-- C7 counterexample: on an empty container (the deterministic storage
with no cursor record) the first conditional fetch of the batch claim
fails, yet `allocate` returns `Ok` with the ID `{hi = 0, lo = 1024}` and
installs the bootstrap range — refuting the claim that every execution in
which the fetch (or insert) step fails returns an error and leaves the
range unchanged. -/
theorem allocate_ok_despite_fetch_failure_counterexample :
    (storageEnv none).fetch1 = .error fetchFailedError
    ∧ DaosAsyncOidAllocator.allocate ⟨0, 0⟩ (storageEnv none) =
        (.ok ⟨0, 1024⟩, ⟨1025, 2048⟩,
         [.txOpen 1, .fetch 1 32,
          .update 0 .condDkeyInsert (u128ToLeBytes 2048)]) := by
  constructor
  · decide
  · decide

/-- C7 as amended: whenever the batch claim as a whole returns an error
(failed first transaction open, failed retry open, failed re-fetch, failed
update, or failed commit — as opposed to a first-fetch failure recovered by
the bootstrap insert, or an insert conflict recovered by the one-shot
retry, which are normal control flow), `allocate` (async and sync)
propagates that error, returns no `ObjectId`, and leaves the in-memory
range exactly as it was; moreover the in-memory range changes only when
the claim returned a fully committed new range. -/
theorem allocate_error_frame_amended (a : U128Range) (env : BatchEnv)
    (e : IoError) (calls : List StorageCall)
    (hslow : a.«end» ≤ a.start)
    (hclaim : allocate_oid_batch env = (.err e, calls)) :
    DaosAsyncOidAllocator.allocate a env = (.err e, a, calls)
    ∧ DaosSyncOidAllocator.allocate a env = (.err e, a, calls)
    ∧ (∀ res a2 calls2, DaosAsyncOidAllocator.allocate a env = (res, a2, calls2) →
        a2 = a) := by
  have h : DaosAsyncOidAllocator.allocate a env = (.err e, a, calls) := by
    rw [DaosAsyncOidAllocator.allocate, if_pos hslow, hclaim]
  refine ⟨h, by rw [sync_allocate_eq_async]; exact h, ?_⟩
  intro res a2 calls2 h2
  rw [h] at h2
  exact congrArg (fun p => p.2.1) h2.symm

theorem allocate_error_frame_amended_witness :
    ((0 : Nat) ≤ 0
      ∧ allocate_oid_batch ⟨.error txnOpenFailedError, .ok [], .ok (), .ok (), .ok [], .ok (), .ok ()⟩ =
          (.err txnOpenFailedError, [.txOpen 1]))
    ∧ DaosAsyncOidAllocator.allocate ⟨0, 0⟩
        ⟨.error txnOpenFailedError, .ok [], .ok (), .ok (), .ok [], .ok (), .ok ()⟩ =
        (.err txnOpenFailedError, ⟨0, 0⟩, [.txOpen 1]) :=
  ⟨⟨by decide, by decide⟩,
   (allocate_error_frame_amended ⟨0, 0⟩
     ⟨.error txnOpenFailedError, .ok [], .ok (), .ok (), .ok [], .ok (), .ok ()⟩
     txnOpenFailedError [.txOpen 1] (by decide) (by decide)).1⟩

/-!
Run-composition lemmas for whole-system runs.
-/

theorem sysRun_cons_alloc (s : SysState) (rest : List SysAct) :
    sysRun s (.allocOne :: rest) =
      ((⟨(sysAllocate s).1, (sysAllocate s).2.2⟩ : AllocLog) ::
         (sysRun (sysAllocate s).2.1 rest).1,
       (sysRun (sysAllocate s).2.1 rest).2) := by
  rcases h : sysAllocate s with ⟨res, s1, calls⟩
  rcases h2 : sysRun s1 rest with ⟨logs, s2⟩
  simp [sysRun, h, h2]

theorem sysRun_append (l1 l2 : List SysAct) : ∀ s : SysState,
    sysRun s (l1 ++ l2) =
      ((sysRun s l1).1 ++ (sysRun (sysRun s l1).2 l2).1,
       (sysRun (sysRun s l1).2 l2).2) := by
  induction l1 with
  | nil => intro s; simp [sysRun]
  | cons a rest ih =>
    intro s
    cases a with
    | allocOne =>
      rcases h : sysAllocate s with ⟨res, s1, calls⟩
      rcases h2 : sysRun s1 rest with ⟨logs, s2⟩
      have := ih s1
      rw [h2] at this
      simp [sysRun, h, h2, this]
    | interfere v =>
      simp [sysRun, ih (interfere s v)]

theorem sysAllocate_fast (s : SysState)
    (hlt : s.alloc.start < s.alloc.«end») (hsm : s.alloc.start < 2 ^ 96) :
    sysAllocate s =
      (.ok (encodeOid s.alloc.start),
       ⟨⟨s.alloc.start + 1, s.alloc.«end»⟩, s.cursor⟩, []) := by
  have hex : oidExhausted s.alloc.start = false := (oidExhausted_eq_false_iff _).2 hsm
  have halloc : DaosAsyncOidAllocator.allocate s.alloc (storageEnv s.cursor) =
      (.ok (encodeOid s.alloc.start), ⟨s.alloc.start + 1, s.alloc.«end»⟩, []) := by
    rw [DaosAsyncOidAllocator.allocate, if_neg (by omega), if_neg (by simp [hex])]
  simp [sysAllocate, halloc, applyCalls]

theorem sysRun_fast (k : Nat) : ∀ s : SysState,
    s.alloc.start + k ≤ s.alloc.«end» → s.alloc.«end» ≤ 2 ^ 96 →
    sysRun s (List.replicate k .allocOne) =
      ((List.range k).map fun i => ⟨.ok (encodeOid (s.alloc.start + i)), []⟩,
       ⟨⟨s.alloc.start + k, s.alloc.«end»⟩, s.cursor⟩) := by
  induction k with
  | zero =>
    intro s h1 h2
    rcases s with ⟨⟨st, en⟩, cur⟩
    simp [sysRun]
  | succ k ih =>
    intro s h1 h2
    have hstep := sysAllocate_fast s (by omega) (by omega)
    have ih' := ih ⟨⟨s.alloc.start + 1, s.alloc.«end»⟩, s.cursor⟩ (by simp; omega) h2
    rw [List.replicate_succ]
    simp only [sysRun, hstep, ih']
    rw [List.range_succ_eq_map]
    simp only [List.map_cons, List.map_map, Nat.add_zero]
    have harith : s.alloc.start + (k + 1) = s.alloc.start + 1 + k := by omega
    have hfun : ((fun i => (⟨.ok (encodeOid (s.alloc.start + i)), ([] : List StorageCall)⟩ : AllocLog)) ∘ Nat.succ)
        = fun i => (⟨.ok (encodeOid (s.alloc.start + 1 + i)), []⟩ : AllocLog) := by
      funext i
      simp only [Function.comp, Nat.succ_eq_add_one]
      have h5 : s.alloc.start + (i + 1) = s.alloc.start + 1 + i := by omega
      rw [h5]
    rw [harith, hfun]

/-- C2: with `OID_BATCH_SIZE = 1024` and `OID_BATCH_CURSOR_START = 1024`,
on an empty container (no cursor record, in-memory range `0..0`), the
first `allocate` returns `{hi = 0, lo = 1024}` (bootstrapping the cursor to
2048); calls 2 through 1024 run purely on the fast path with no storage
calls, the 1024th returning `{hi = 0, lo = 2047}`; the 1025th call
triggers a batch claim that advances the cursor to 3072, installing the
range `[2048, 3072)`, and returns `{hi = 0, lo = 2048}`. -/
theorem concrete_first_batch_scenario :
    OID_BATCH_SIZE = 1024
    ∧ OID_BATCH_CURSOR_START = 1024
    ∧ (sysRun initState (List.replicate 1025 SysAct.allocOne)).1.get? 0 =
        some ⟨.ok ⟨0, 1024⟩,
          [.txOpen 1, .fetch 1 32, .update 0 .condDkeyInsert (u128ToLeBytes 2048)]⟩
    ∧ (sysRun initState (List.replicate 1025 SysAct.allocOne)).1.get? 1023 =
        some ⟨.ok ⟨0, 2047⟩, []⟩
    ∧ (((sysRun initState (List.replicate 1025 SysAct.allocOne)).1.drop 1).take 1023).all
        (fun l => l.calls.isEmpty) = true
    ∧ (sysRun initState (List.replicate 1025 SysAct.allocOne)).1.get? 1024 =
        some ⟨.ok ⟨0, 2048⟩,
          [.txOpen 1, .fetch 1 32, .update 1 .condDkeyUpdate (u128ToLeBytes 3072), .commit 1]⟩
    ∧ (sysRun initState (List.replicate 1025 SysAct.allocOne)).2 =
        ⟨⟨2049, 3072⟩, some (u128ToLeBytes 3072)⟩ := by
  have hboot : sysAllocate initState =
      (.ok ⟨0, 1024⟩, ⟨⟨1025, 2048⟩, some (u128ToLeBytes 2048)⟩,
       [.txOpen 1, .fetch 1 32, .update 0 .condDkeyInsert (u128ToLeBytes 2048)]) := by
    decide
  have hmid := sysRun_fast 1023 ⟨⟨1025, 2048⟩, some (u128ToLeBytes 2048)⟩
    (by norm_num) (by norm_num)
  have hlast : sysAllocate ⟨⟨2048, 2048⟩, some (u128ToLeBytes 2048)⟩ =
      (.ok ⟨0, 2048⟩, ⟨⟨2049, 3072⟩, some (u128ToLeBytes 3072)⟩,
       [.txOpen 1, .fetch 1 32, .update 1 .condDkeyUpdate (u128ToLeBytes 3072), .commit 1]) := by
    decide
  have hsplit : (1025 : Nat) = 1023 + 1 + 1 := by norm_num
  have hrun : sysRun initState (List.replicate 1025 SysAct.allocOne) =
      (⟨.ok ⟨0, 1024⟩,
         [.txOpen 1, .fetch 1 32, .update 0 .condDkeyInsert (u128ToLeBytes 2048)]⟩ ::
        (((List.range 1023).map fun i =>
            (⟨.ok (encodeOid (1025 + i)), []⟩ : AllocLog)) ++
         [⟨.ok ⟨0, 2048⟩,
           [.txOpen 1, .fetch 1 32, .update 1 .condDkeyUpdate (u128ToLeBytes 3072),
            .commit 1]⟩]),
       ⟨⟨2049, 3072⟩, some (u128ToLeBytes 3072)⟩) := by
    rw [hsplit, List.replicate_succ, List.replicate_succ']
    rw [sysRun_cons_alloc, hboot]
    rw [sysRun_append, hmid]
    rw [sysRun_cons_alloc, hlast]
    simp only [sysRun]
  rw [hrun]
  refine ⟨rfl, rfl, rfl, ?_, ?_, ?_, rfl⟩
  · have h1023 : (1023 : Nat) = 1022 + 1 := by norm_num
    rw [h1023, List.get?_cons_succ, List.get?_append (by simp), List.get?_map,
      List.get?_range (by norm_num)]
    decide
  · have hlen : ((List.range 1023).map fun i =>
        (⟨.ok (encodeOid (1025 + i)), []⟩ : AllocLog)).length = 1023 := by
      simp
    rw [List.drop_one, List.tail_cons, List.take_left' hlen, List.all_eq_true]
    intro x hx
    rcases List.mem_map.1 hx with ⟨i, _, hi⟩
    rw [← hi]
    rfl
  · have h1024 : (1024 : Nat) = 1023 + 1 := by norm_num
    rw [h1024, List.get?_cons_succ, List.get?_append_right (by simp)]
    simp

/-!
Invariant relating the instance's in-memory range to the persisted cursor,
and the single-step and whole-run lemmas behind the uniqueness property.
-/

/-- System invariant: the range is well formed, and the persisted cursor
(16 little-endian bytes of a `u128`, when present) is at or above the
range's exclusive end; before any cursor exists, the range lies at or below
the bootstrap base `OID_BATCH_CURSOR_START`. -/
def CursorInv (s : SysState) : Prop :=
  s.alloc.start ≤ s.alloc.«end»
  ∧ (s.cursor = none → s.alloc.«end» ≤ OID_BATCH_CURSOR_START)
  ∧ (∀ bs, s.cursor = some bs →
      bs.length = 16 ∧ s.alloc.«end» ≤ leBytesToNat bs ∧ leBytesToNat bs < U128_LIMIT)

theorem interfere_inv (s : SysState) (v : Nat) (h : CursorInv s) :
    CursorInv (interfere s v) ∧ (interfere s v).alloc = s.alloc := by
  obtain ⟨h1, h2, h3⟩ := h
  rcases s with ⟨al, cur⟩
  rcases cur with _ | bs
  · simp only [interfere]
    split_ifs with hv
    · refine ⟨⟨h1, by simp, ?_⟩, rfl⟩
      intro bs2 hbs2
      simp only [Option.some.injEq] at hbs2
      subst hbs2
      refine ⟨length_u128ToLeBytes v, ?_, ?_⟩
      · rw [leBytesToNat_u128ToLeBytes, Nat.mod_eq_of_lt hv.2]
        have h4 := h2 rfl
        have h5 : OID_BATCH_CURSOR_START ≤ OID_BATCH_CURSOR_START + OID_BATCH_SIZE :=
          Nat.le_add_right _ _
        dsimp only at h4 ⊢
        omega
      · rw [leBytesToNat_u128ToLeBytes, Nat.mod_eq_of_lt hv.2]
        exact hv.2
    · exact ⟨⟨h1, h2, h3⟩, rfl⟩
  · simp only [interfere]
    split_ifs with hv
    · refine ⟨⟨h1, by simp, ?_⟩, rfl⟩
      intro bs2 hbs2
      simp only [Option.some.injEq] at hbs2
      subst hbs2
      refine ⟨length_u128ToLeBytes v, ?_, ?_⟩
      · rw [leBytesToNat_u128ToLeBytes, Nat.mod_eq_of_lt hv.2]
        have h4 := (h3 bs rfl).2.1
        dsimp only at h4 ⊢
        omega
      · rw [leBytesToNat_u128ToLeBytes, Nat.mod_eq_of_lt hv.2]
        exact hv.2
    · exact ⟨⟨h1, h2, h3⟩, rfl⟩

theorem sysAllocate_ok_step (s : SysState) (oid : DaosObjectId) (s' : SysState)
    (calls : List StorageCall) (hInv : CursorInv s)
    (h : sysAllocate s = (.ok oid, s', calls)) :
    CursorInv s'
    ∧ ∃ v, oid = encodeOid v ∧ v < U128_LIMIT ∧ s.alloc.start ≤ v
        ∧ s'.alloc.start = v + 1
        ∧ (calls = [] → s'.alloc.«end» = s.alloc.«end» ∧ s'.cursor = s.cursor)
        ∧ (calls ≠ [] → s'.alloc = ⟨v + 1, v + OID_BATCH_SIZE⟩) := by
  have hB : OID_BATCH_SIZE = 1024 := rfl
  have hCS : OID_BATCH_CURSOR_START = 1024 := rfl
  have hU : (2 : Nat) ^ 96 + OID_BATCH_SIZE ≤ U128_LIMIT := by decide
  rcases s with ⟨⟨st, en⟩, cur⟩
  obtain ⟨h1, h2, h3⟩ := hInv
  dsimp only at h1 h2 h3
  by_cases hfast : st < en
  · cases hex : oidExhausted st with
    | false =>
      have hsm96 : st < 2 ^ 96 := (oidExhausted_eq_false_iff st).1 hex
      have halloc : DaosAsyncOidAllocator.allocate ⟨st, en⟩ (storageEnv cur) =
          (.ok (encodeOid st), ⟨st + 1, en⟩, []) := by
        rw [DaosAsyncOidAllocator.allocate, if_neg (by dsimp only; omega)]
        dsimp only
        rw [if_neg (by simp [hex])]
      have hsys : sysAllocate ⟨⟨st, en⟩, cur⟩ =
          (.ok (encodeOid st), ⟨⟨st + 1, en⟩, cur⟩, []) := by
        simp [sysAllocate, halloc, applyCalls]
      rw [hsys] at h
      simp only [Prod.mk.injEq, RustResult.ok.injEq] at h
      obtain ⟨hoid, hs', hcalls⟩ := h
      subst hs'
      refine ⟨⟨by dsimp only; omega, by dsimp only; exact h2, by dsimp only; exact h3⟩,
        st, hoid.symm, ?_, le_refl st, rfl, fun _ => ⟨rfl, rfl⟩,
        fun hne => absurd hcalls.symm hne⟩
      calc st < 2 ^ 96 := hsm96
      _ < U128_LIMIT := by decide
    | true =>
      have halloc : DaosAsyncOidAllocator.allocate ⟨st, en⟩ (storageEnv cur) =
          (.err noMoreOidsError, ⟨st, en⟩, []) := by
        rw [DaosAsyncOidAllocator.allocate, if_neg (by dsimp only; omega)]
        dsimp only
        rw [if_pos (by simp [hex])]
      have hsys : sysAllocate ⟨⟨st, en⟩, cur⟩ =
          (.err noMoreOidsError, ⟨⟨st, en⟩, cur⟩, []) := by
        simp [sysAllocate, halloc, applyCalls]
      rw [hsys] at h
      simp at h
  · rcases cur with _ | bs
    · have hclaim : allocate_oid_batch (storageEnv none) =
          (.ok ⟨1024, 2048⟩,
           [.txOpen 1, .fetch 1 32, .update 0 .condDkeyInsert (u128ToLeBytes 2048)]) := by
        decide
      have halloc : DaosAsyncOidAllocator.allocate ⟨st, en⟩ (storageEnv none) =
          (.ok (encodeOid 1024), ⟨1025, 2048⟩,
           [.txOpen 1, .fetch 1 32, .update 0 .condDkeyInsert (u128ToLeBytes 2048)]) := by
        rw [DaosAsyncOidAllocator.allocate, if_pos (by dsimp only; omega), hclaim]
        dsimp only
        rw [if_neg (by decide)]
      have happly : applyCalls none
          [.txOpen 1, .fetch 1 32, .update 0 .condDkeyInsert (u128ToLeBytes 2048)] =
          some (u128ToLeBytes 2048) := by
        decide
      have hsys : sysAllocate ⟨⟨st, en⟩, none⟩ =
          (.ok (encodeOid 1024), ⟨⟨1025, 2048⟩, some (u128ToLeBytes 2048)⟩,
           [.txOpen 1, .fetch 1 32, .update 0 .condDkeyInsert (u128ToLeBytes 2048)]) := by
        simp only [sysAllocate, halloc, applyCalls] at happly ⊢
        rw [happly]
      rw [hsys] at h
      simp only [Prod.mk.injEq, RustResult.ok.injEq] at h
      obtain ⟨hoid, hs', hcalls⟩ := h
      subst hs'
      have h2' := h2 rfl
      refine ⟨⟨by dsimp only; omega, by simp, ?_⟩,
        1024, hoid.symm, by decide, by dsimp only; omega, rfl,
        fun habs => absurd hcalls.symm (by simp [habs] at hcalls ⊢), ?_⟩
      · intro bs2 hbs2
        simp only [Option.some.injEq] at hbs2
        subst hbs2
        refine ⟨length_u128ToLeBytes 2048, ?_, ?_⟩
        · rw [leBytesToNat_u128ToLeBytes]
          decide
        · rw [leBytesToNat_u128ToLeBytes]
          decide
      · intro _
        decide
    · obtain ⟨hlen, hle, hltc⟩ := h3 bs rfl
      cases hex : oidExhausted (leBytesToNat bs) with
      | true =>
        have hclaim : allocate_oid_batch (storageEnv (some bs)) =
            (.ok ⟨leBytesToNat bs, (leBytesToNat bs + OID_BATCH_SIZE) % U128_LIMIT⟩,
             [.txOpen 1, .fetch 1 32,
              .update 1 .condDkeyUpdate
                (u128ToLeBytes ((leBytesToNat bs + OID_BATCH_SIZE) % U128_LIMIT)),
              .commit 1]) := by
          simp only [allocate_oid_batch, storageEnv,
            u128FromLeBytes?_of_length bs hlen, finishClaim]
          rfl
        have halloc : DaosAsyncOidAllocator.allocate ⟨st, en⟩ (storageEnv (some bs)) =
            (.err noMoreOidsError,
             ⟨leBytesToNat bs, (leBytesToNat bs + OID_BATCH_SIZE) % U128_LIMIT⟩,
             [.txOpen 1, .fetch 1 32,
              .update 1 .condDkeyUpdate
                (u128ToLeBytes ((leBytesToNat bs + OID_BATCH_SIZE) % U128_LIMIT)),
              .commit 1]) := by
          rw [DaosAsyncOidAllocator.allocate, if_pos (by dsimp only; omega), hclaim]
          dsimp only
          rw [if_pos (by simp [hex])]
        rcases h4 : sysAllocate ⟨⟨st, en⟩, some bs⟩ with ⟨res, s2, calls2⟩
        rw [h4] at h
        have : res = .err noMoreOidsError := by
          have := congrArg (fun p => p.1) h4.symm
          simpa [sysAllocate, halloc] using this
        rw [this] at h
        simp at h
      | false =>
        have h96 : leBytesToNat bs < 2 ^ 96 := (oidExhausted_eq_false_iff _).1 hex
        have hofl : leBytesToNat bs + OID_BATCH_SIZE < U128_LIMIT := by omega
        have hmod : (leBytesToNat bs + OID_BATCH_SIZE) % U128_LIMIT =
            leBytesToNat bs + OID_BATCH_SIZE := Nat.mod_eq_of_lt hofl
        have hclaim : allocate_oid_batch (storageEnv (some bs)) =
            (.ok ⟨leBytesToNat bs, leBytesToNat bs + OID_BATCH_SIZE⟩,
             [.txOpen 1, .fetch 1 32,
              .update 1 .condDkeyUpdate
                (u128ToLeBytes (leBytesToNat bs + OID_BATCH_SIZE)),
              .commit 1]) := by
          simp only [allocate_oid_batch, storageEnv,
            u128FromLeBytes?_of_length bs hlen, finishClaim, hmod]
          rfl
        have halloc : DaosAsyncOidAllocator.allocate ⟨st, en⟩ (storageEnv (some bs)) =
            (.ok (encodeOid (leBytesToNat bs)),
             ⟨leBytesToNat bs + 1, leBytesToNat bs + OID_BATCH_SIZE⟩,
             [.txOpen 1, .fetch 1 32,
              .update 1 .condDkeyUpdate
                (u128ToLeBytes (leBytesToNat bs + OID_BATCH_SIZE)),
              .commit 1]) := by
          rw [DaosAsyncOidAllocator.allocate, if_pos (by dsimp only; omega), hclaim]
          dsimp only
          rw [if_neg (by simp [hex])]
        have happly : applyCalls (some bs)
            [.txOpen 1, .fetch 1 32,
             .update 1 .condDkeyUpdate
               (u128ToLeBytes (leBytesToNat bs + OID_BATCH_SIZE)),
             .commit 1] =
            some (u128ToLeBytes (leBytesToNat bs + OID_BATCH_SIZE)) := by
          simp [applyCalls, applyCall]
        have hsys : sysAllocate ⟨⟨st, en⟩, some bs⟩ =
            (.ok (encodeOid (leBytesToNat bs)),
             ⟨⟨leBytesToNat bs + 1, leBytesToNat bs + OID_BATCH_SIZE⟩,
              some (u128ToLeBytes (leBytesToNat bs + OID_BATCH_SIZE))⟩,
             [.txOpen 1, .fetch 1 32,
              .update 1 .condDkeyUpdate
                (u128ToLeBytes (leBytesToNat bs + OID_BATCH_SIZE)),
              .commit 1]) := by
          simp only [sysAllocate, halloc, applyCalls] at happly ⊢
          rw [happly]
        rw [hsys] at h
        simp only [Prod.mk.injEq, RustResult.ok.injEq] at h
        obtain ⟨hoid, hs', hcalls⟩ := h
        subst hs'
        refine ⟨⟨by dsimp only; omega, by simp, ?_⟩,
          leBytesToNat bs, hoid.symm, hltc, by dsimp only; omega, rfl,
          fun habs => by simp [← hcalls] at habs, fun _ => rfl⟩
        intro bs2 hbs2
        simp only [Option.some.injEq] at hbs2
        subst hbs2
        refine ⟨length_u128ToLeBytes _, ?_, ?_⟩
        · rw [leBytesToNat_u128ToLeBytes, hmod]
        · rw [leBytesToNat_u128ToLeBytes, hmod]
          exact hofl

theorem okVals_eq_map (logs : List AllocLog) :
    okVals logs = (okIds logs).map oidVal := by
  induction logs with
  | nil => rfl
  | cons l rest ih =>
    cases hres : l.res <;> simp [okVals, okIds, hres, ih] <;>
      simpa [okVals, okIds] using ih

theorem sysRun_ok_invariants (acts : List SysAct) : ∀ s : SysState, CursorInv s →
    allOk (sysRun s acts).1 →
    CursorInv (sysRun s acts).2
    ∧ s.alloc.start ≤ (sysRun s acts).2.alloc.start
    ∧ List.Pairwise (· < ·) (okVals (sysRun s acts).1)
    ∧ (∀ w ∈ okVals (sysRun s acts).1,
        s.alloc.start ≤ w ∧ w + 1 ≤ (sysRun s acts).2.alloc.start ∧ w < U128_LIMIT) := by
  induction acts with
  | nil =>
    intro s hInv _
    simp only [sysRun, okVals, List.filterMap_nil]
    exact ⟨hInv, le_refl _, List.Pairwise.nil, by simp⟩
  | cons a rest ih =>
    intro s hInv hok
    cases a with
    | allocOne =>
      rcases h1 : sysAllocate s with ⟨res, s1, calls⟩
      rcases h2 : sysRun s1 rest with ⟨logs, s2⟩
      have hrun : sysRun s (SysAct.allocOne :: rest) = (⟨res, calls⟩ :: logs, s2) := by
        simp [sysRun, h1, h2]
      rw [hrun] at hok ⊢
      dsimp only
      have hokhead : isOkRes res = true := hok ⟨res, calls⟩ (List.mem_cons_self _ _)
      have hoklogs : allOk logs := fun l hl => hok l (List.mem_cons_of_mem _ hl)
      rcases res with oid | e | _
      · obtain ⟨hInv1, v, hoid, hvU, hvge, hvstart, _⟩ :=
          sysAllocate_ok_step s oid s1 calls hInv h1
        have ihr := ih s1 hInv1 (by rw [h2]; exact hoklogs)
        rw [h2] at ihr
        dsimp only at ihr
        obtain ⟨ihInv, ihmono, ihpw, ihbound⟩ := ihr
        have hval : oidVal oid = v := by rw [hoid]; exact oidVal_encodeOid v hvU
        have hvals : okVals (⟨.ok oid, calls⟩ :: logs) = v :: okVals logs := by
          simp [okVals, hval]
        refine ⟨ihInv, ?_, ?_, ?_⟩
        · omega
        · rw [hvals]
          refine List.Pairwise.cons ?_ ihpw
          intro w hw
          have := (ihbound w hw).1
          omega
        · rw [hvals]
          intro w hw
          rcases List.mem_cons.1 hw with hw | hw
          · subst hw
            refine ⟨hvge, ?_, hvU⟩
            omega
          · obtain ⟨hb1, hb2, hb3⟩ := ihbound w hw
            exact ⟨by omega, hb2, hb3⟩
      · simp [isOkRes] at hokhead
      · simp [isOkRes] at hokhead
    | interfere v =>
      obtain ⟨hInv2, halloc⟩ := interfere_inv s v hInv
      have hrun : sysRun s (SysAct.interfere v :: rest) = sysRun (interfere s v) rest := by
        simp [sysRun]
      rw [hrun] at hok ⊢
      have ihr := ih (interfere s v) hInv2 hok
      rw [halloc] at ihr
      exact ihr

/-- C1: along any run of one allocator instance against the deterministic
section-6 storage (with arbitrary monotone interference on the cursor by
other instances) in which every `allocate` call returns `Ok`, the returned
`ObjectId`s are pairwise distinct (their 128-bit values strictly
increase); each successful call strictly increases the instance's range
start; and every batch claim performed by a successful call installs the
range `[oidVal, oidVal + OID_BATCH_SIZE)` whose start is strictly above
every previously consumed value. -/
theorem single_instance_uniqueness (acts : List SysAct)
    (h : allOk (sysRun initState acts).1) :
    (okIds (sysRun initState acts).1).Pairwise (· ≠ ·)
    ∧ List.Pairwise (· < ·) (okVals (sysRun initState acts).1)
    ∧ (∀ pre post, acts = pre ++ SysAct.allocOne :: post →
        ∀ oid s1 calls,
          sysAllocate (sysRun initState pre).2 = (.ok oid, s1, calls) →
          (sysRun initState pre).2.alloc.start < s1.alloc.start
          ∧ (calls ≠ [] →
              s1.alloc = ⟨oidVal oid + 1, oidVal oid + OID_BATCH_SIZE⟩
              ∧ ∀ w ∈ okVals (sysRun initState pre).1, w < oidVal oid)) := by
  have hInit : CursorInv initState := by
    refine ⟨le_refl 0, fun _ => by decide, fun bs hbs => by simp [initState] at hbs⟩
  obtain ⟨hInv, hmono, hpw, hbound⟩ := sysRun_ok_invariants acts initState hInit h
  refine ⟨?_, hpw, ?_⟩
  · have hmapped := hpw
    rw [okVals_eq_map, List.pairwise_map] at hmapped
    exact hmapped.imp fun hlt heq => by rw [heq] at hlt; exact lt_irrefl _ hlt
  · intro pre post hsplit oid s1 calls hstep
    have happ := sysRun_append pre (SysAct.allocOne :: post) initState
    have hokpre : allOk (sysRun initState pre).1 := by
      intro l hl
      apply h
      rw [hsplit, happ]
      exact List.mem_append_left _ hl
    obtain ⟨hInvPre, _, _, hboundPre⟩ := sysRun_ok_invariants pre initState hInit hokpre
    obtain ⟨_, v, hoid, hvU, hvge, hvstart, _, hinstall⟩ :=
      sysAllocate_ok_step _ oid s1 calls hInvPre hstep
    have hval : oidVal oid = v := by rw [hoid]; exact oidVal_encodeOid v hvU
    refine ⟨by omega, ?_⟩
    intro hne
    refine ⟨by rw [hval]; exact hinstall hne, ?_⟩
    intro w hw
    have hwb := (hboundPre w hw).2.1
    omega

/-- Concrete action list for the uniqueness witness: two allocations of
this instance with a concurrent cursor bump in between. -/
def c1WitnessActs : List SysAct := [.allocOne, .interfere 5000, .allocOne]

theorem single_instance_uniqueness_witness :
    allOk (sysRun initState c1WitnessActs).1
    ∧ ((okIds (sysRun initState c1WitnessActs).1).Pairwise (· ≠ ·)
      ∧ List.Pairwise (· < ·) (okVals (sysRun initState c1WitnessActs).1)
      ∧ (∀ pre post, c1WitnessActs = pre ++ SysAct.allocOne :: post →
          ∀ oid s1 calls,
            sysAllocate (sysRun initState pre).2 = (.ok oid, s1, calls) →
            (sysRun initState pre).2.alloc.start < s1.alloc.start
            ∧ (calls ≠ [] →
                s1.alloc = ⟨oidVal oid + 1, oidVal oid + OID_BATCH_SIZE⟩
                ∧ ∀ w ∈ okVals (sysRun initState pre).1, w < oidVal oid))) :=
  ⟨by decide, single_instance_uniqueness c1WitnessActs (by decide)⟩
